import Mathlib

/-!
Shallow embedding of the sterile-processing scoring engine
(src/unnamed/part_001) and proofs about it.

Modelling conventions:
* JavaScript numbers are modelled as exact rationals; numeric literals
  such as 0.4, 0.25, 0.5, 0.7, 0.3 become the rationals 2/5, 1/4, 1/2,
  7/10, 3/10.  Non-finite results (NaN, Infinity) cannot arise from the
  arithmetic the engine performs after toNumber clamping, and are
  represented explicitly only in the JSValue input model.
* JavaScript Array.prototype.sort with a numeric comparator is modelled
  by insertion sort: on numbers the stable ascending order is the unique
  sorted permutation, and for the object sorts the stable order matters
  and insertion sort is stable.
* The two binary-search while loops (lowerBound / upperBound) are
  modelled with an explicit fuel parameter equal to the initial
  search-space width; each iteration shrinks the space, so the fuel
  never runs out.
-/

namespace SPD

/-- The twelve metric keys, in declaration order (source lines 1-13). -/
inductive MetricKey where
  | deconScans | sinkInst | sinkTrays
  | assembledTrays | assembledPacks | assembledInst
  | workedHoursPerUnit | assemblyMissingInst
  | sterilizerLoads | itemsSterilized | deliverScans
  | defectRate
deriving DecidableEq

/-- Display format of a metric (source line 19). -/
inductive MetricFormat where
  | number | rate
deriving DecidableEq

/-- Static metric descriptor (source lines 15-23). -/
structure MetricDefinition where
  key : MetricKey
  label : String
  higherBetter : Bool
  format : MetricFormat
  decimals : Option Nat
  shortLabel : Option String
  helper : Option String
deriving DecidableEq

/-- The fixed metric table DEFAULT_METRICS (source lines 25-116). -/
def DEFAULT_METRICS : List MetricDefinition :=
  [ { key := MetricKey.deconScans, label := "Decontamination Scans", higherBetter := true,
      format := MetricFormat.number, decimals := some 0, shortLabel := some ("Decontamination"), helper := none },
    { key := MetricKey.sinkInst, label := "Sink Instruments", higherBetter := true,
      format := MetricFormat.number, decimals := some 0, shortLabel := none, helper := none },
    { key := MetricKey.sinkTrays, label := "Sink Trays", higherBetter := true,
      format := MetricFormat.number, decimals := some 0, shortLabel := none, helper := none },
    { key := MetricKey.assembledTrays, label := "Assembled Trays", higherBetter := true,
      format := MetricFormat.number, decimals := some 0, shortLabel := some ("Assembly"), helper := none },
    { key := MetricKey.assembledPacks, label := "Assembled Peel Packs", higherBetter := true,
      format := MetricFormat.number, decimals := some 0, shortLabel := none, helper := none },
    { key := MetricKey.assembledInst, label := "Assembled Instruments", higherBetter := true,
      format := MetricFormat.number, decimals := some 0, shortLabel := none, helper := none },
    { key := MetricKey.workedHoursPerUnit, label := "Worked Hours / Unit", higherBetter := false,
      format := MetricFormat.number, decimals := some 3, shortLabel := none, helper := some ("lower is better") },
    { key := MetricKey.assemblyMissingInst, label := "Missing Instruments Rate", higherBetter := false,
      format := MetricFormat.rate, decimals := some 2, shortLabel := none, helper := some ("lower is better") },
    { key := MetricKey.sterilizerLoads, label := "Sterilizer Loads", higherBetter := true,
      format := MetricFormat.number, decimals := some 0, shortLabel := some ("Sterilize"), helper := none },
    { key := MetricKey.itemsSterilized, label := "Items Sterilized", higherBetter := true,
      format := MetricFormat.number, decimals := some 0, shortLabel := none, helper := none },
    { key := MetricKey.deliverScans, label := "Deliver Scans", higherBetter := true,
      format := MetricFormat.number, decimals := some 0, shortLabel := none, helper := none },
    { key := MetricKey.defectRate, label := "Defect Rate", higherBetter := false,
      format := MetricFormat.rate, decimals := some 1, shortLabel := none, helper := some ("lower is better") } ]

/-- METRIC_KEYS (source line 118). -/
def METRIC_KEYS : List MetricKey := DEFAULT_METRICS.map (fun m => m.key)

/-- METRIC_HIGHER_BETTER, the key-to-orientation record built by reduce
(source lines 119-125), modelled as a lookup into DEFAULT_METRICS. -/
def METRIC_HIGHER_BETTER : MetricKey → Bool := fun k =>
  ((DEFAULT_METRICS.find? (fun m => m.key == k)).map (fun m => m.higherBetter)).getD true

/-- The three pillar keys (source line 147). -/
inductive PillarKey where
  | decon | assembly | sterilize
deriving DecidableEq

/-- PILLAR_KEYS (source line 151). -/
def PILLAR_KEYS : List PillarKey := [PillarKey.decon, PillarKey.assembly, PillarKey.sterilize]

/-- PILLAR_HIGHER_BETTER: every pillar is higher-is-better (source lines 152-156). -/
def PILLAR_HIGHER_BETTER : PillarKey → Bool := fun _ => true

/-- A normalized input row (source lines 127-145).  The User ID field,
string-or-number in the source, is modelled as the string the engine
coerces it to. -/
structure RawRow where
  userId : String
  userName : String
  hoursWorked : ℚ
  numofEvents : ℚ
  defectRate : ℚ
  deconScans : ℚ
  sinkInst : ℚ
  sinkTrays : ℚ
  assembledTrays : ℚ
  assembledPacks : ℚ
  assembledInst : ℚ
  assemblyMissingInst : ℚ
  sterilizerLoads : ℚ
  itemsSterilized : ℚ
  deliverScans : ℚ
  activityCount : ℚ
  activityTimeMins : ℚ
deriving DecidableEq

/-- toNumber applied to a value that is already a finite number: the
Number() conversion is the identity there, leaving the clamp
Math.max(0, num) (source lines 196-200). -/
def toNumberQ (q : ℚ) : ℚ := max 0 q

/-- safeDiv (source lines 202-205). -/
def safeDiv (numerator denominator minDenominator : ℚ) : ℚ :=
  numerator / max denominator minDenominator

/-- median (source lines 207-215): sort ascending, middle element, or
average of the two middle elements for even length; 0 for empty input. -/
def median (values : List ℚ) : ℚ :=
  if values.length = 0 then 0
  else
    let sorted := List.insertionSort (· ≤ ·) values
    let mid := sorted.length / 2
    if sorted.length % 2 = 0 then (sorted.getD (mid - 1) 0 + sorted.getD mid 0) / 2
    else sorted.getD mid 0

/-- The shared body of the lowerBound / upperBound binary-search while
loops (source lines 217-243), with the loop condition parameterised:
p is the test that sends the search right (values[mid] < target for
lowerBound, values[mid] <= target for upperBound).  The fuel parameter
bounds the number of iterations; high - low shrinks every iteration, so
fuel = initial width is always enough. -/
def bsearchGo (values : List ℚ) (p : ℚ → Bool) : Nat → Nat → Nat → Nat
  | 0, low, _ => low
  | fuel + 1, low, high =>
    if low < high then
      let mid := (low + high) / 2
      if p (values.getD mid 0) then bsearchGo values p fuel (mid + 1) high
      else bsearchGo values p fuel low mid
    else low

/-- lowerBound (source lines 217-229): first index whose value is not
less than target, by binary search. -/
def lowerBound (values : List ℚ) (target : ℚ) : Nat :=
  bsearchGo values (fun x => decide (x < target)) values.length 0 values.length

/-- upperBound (source lines 231-243): first index whose value exceeds
target, by binary search. -/
def upperBound (values : List ℚ) (target : ℚ) : Nat :=
  bsearchGo values (fun x => decide (x ≤ target)) values.length 0 values.length

/-- percentileFromSorted (source lines 245-252). -/
def percentileFromSorted (value : ℚ) (sortedValues : List ℚ) (higherBetter : Bool) : ℚ :=
  if sortedValues.length = 0 then 0
  else
    let lower : ℚ := lowerBound sortedValues value
    let upper : ℚ := upperBound sortedValues value
    let p := ((lower + (1 / 2) * (upper - lower)) / (sortedValues.length : ℚ)) * 100
    let oriented := if higherBetter then p else 100 - p
    max 0 (min 100 oriented)

/-- buildPillarTotals (source lines 256-272). -/
def buildPillarTotals (deconScans sinkInst sinkTrays assembledInst assembledTrays
    assembledPacks itemsSterilized sterilizerLoads deliverScans : ℚ) : PillarKey → ℚ :=
  fun p => match p with
  | PillarKey.decon => deconScans + sinkInst + sinkTrays
  | PillarKey.assembly => assembledInst + assembledTrays + assembledPacks
  | PillarKey.sterilize => itemsSterilized + sterilizerLoads + deliverScans

/-- buildPillarRates (source lines 274-280): pillar total per hour with a
0.25-hour floor on the denominator. -/
def buildPillarRates (totals : PillarKey → ℚ) (hoursWorked : ℚ) : PillarKey → ℚ :=
  fun p => safeDiv (totals p) hoursWorked (1 / 4)

/-- buildMedianMap (source lines 282-290), with records-over-keys
modelled as functions. -/
def buildMedianMap {κ : Type} (items : List (κ → ℚ)) : κ → ℚ :=
  fun key => median (items.map (fun item => item key))

/-- buildSortedValues (source lines 292-300). -/
def buildSortedValues {κ : Type} (items : List (κ → ℚ)) : κ → List ℚ :=
  fun key => List.insertionSort (· ≤ ·) (items.map (fun item => item key))

/-- buildPercentiles (source lines 302-313). -/
def buildPercentiles {κ : Type} (values : κ → ℚ) (sorted : κ → List ℚ)
    (higherBetter : κ → Bool) : κ → ℚ :=
  fun key => percentileFromSorted (values key) (sorted key) (higherBetter key)

/-- Wrap an integer into the signed 32-bit range, as the JS bitwise-or
with 0 does. -/
def wrap32 (n : ℤ) : ℤ := (n + 2 ^ 31) % 2 ^ 32 - 2 ^ 31

/-- One step of the rolling hash (source lines 315-322):
hash = (hash << 5) - hash + charCode, truncated to int32.  The shift is
itself a 32-bit operation, the subtraction and addition are exact, and
the trailing bitwise-or truncates again. -/
def hashStep (hash : ℤ) (c : Nat) : ℤ := wrap32 (wrap32 (hash * 32) - hash + c)

/-- hashString (source lines 315-322): fold the rolling hash over the
character codes and take the absolute value. -/
def hashString (value : String) : Nat :=
  (value.data.foldl (fun h c => hashStep h c.toNat) 0).natAbs

/-- pickBySeed (source lines 324-329).  On an empty pool the source
throws; every pool passed in this file is a non-empty literal, so the
default is never returned. -/
def pickBySeed {α : Type} (items : List α) (seed : String) (dflt : α) : α :=
  items.getD (hashString seed % items.length) dflt

/-- An archetype pool entry (source line 331). -/
structure ArchetypeOption where
  label : String
  description : String
deriving DecidableEq

/-- The four archetype categories (source line 333). -/
inductive ArchetypeKey where
  | decon | assembly | sterilize | utility
deriving DecidableEq

/-- ARCHETYPE_OPTIONS (source lines 333-363). -/
def ARCHETYPE_OPTIONS : ArchetypeKey → List ArchetypeOption := fun k => match k with
  | ArchetypeKey.decon =>
    [ { label := "Biohazard Bouncer", description := "Nothing dirty gets past them. Ever." },
      { label := "Germ Reaper", description := "Where bioburden goes to die." },
      { label := "The Rinse Cycle", description := "Relentless, methodical, unstoppable." },
      { label := "Hazmat Hero", description := "Calm under pressure, fearless around the gross stuff." },
      { label := "Foam & Fury", description := "Aggressive cleaning, zero mercy." } ]
  | ArchetypeKey.assembly =>
    [ { label := "Tray Whisperer", description := "Knows when something\u0027s missing without looking." },
      { label := "Count Sheet Assassin", description := "Precision so clean it is suspicious." },
      { label := "The Lego Master", description := "Everything fits. Every time." },
      { label := "Set Architect", description := "Builds trays like countsheets matter (because they do)." } ]
  | ArchetypeKey.sterilize =>
    [ { label := "Cycle Commander", description := "Parameters locked. Deviations denied." },
      { label := "Steam General", description := "Leads every load like a military op." },
      { label := "The Final Boss", description := "Nothing leaves until it is actually sterile." },
      { label := "Pressure Prophet", description := "Knows a bad cycle before the printout hits." } ]
  | ArchetypeKey.utility =>
    [ { label := "Utility Knife", description := "Plug-and-play anywhere, anytime." },
      { label := "Shift Saver", description := "Everything goes sideways, then they clock in." },
      { label := "The Glue", description := "The department functions because this person exists." },
      { label := "Flex Tech", description := "You move them, performance doesn\u0027t drop." } ]

/-- Badge categories (source line 365). -/
inductive StrengthCategory where
  | quality | speed | decon | sterilize | multi
deriving DecidableEq

/-- STRENGTH_TITLES (source lines 367-397). -/
def STRENGTH_TITLES : StrengthCategory → List String := fun c => match c with
  | StrengthCategory.quality =>
    ["Zero-Defect Menace", "Quality Over Everything", "No Rework, No Regrets",
     "The Auditor\u0027s Nightmare"]
  | StrengthCategory.speed =>
    ["Tray Machine", "Assembly Speedrunner", "Throughput Goblin", "Blink and You Miss It"]
  | StrengthCategory.decon =>
    ["Biofilm Bully", "Decon Demon", "The Pre-Clean King/Queen", "So Fresh, So Clean"]
  | StrengthCategory.sterilize =>
    ["Load Perfecter", "Steam Certified", "Cold Sterile Killer"]
  | StrengthCategory.multi =>
    ["Swiss Army Tech", "Triple Threat", "Department Backbone", "All-Terrain Tech"]

/-- strengthTemplates (source lines 399-402).  Literal braces of the
placeholder are escaped. -/
def strengthTemplates : List String :=
  ["When it comes to \x7b\x7bpillar\x7d\x7d, you\u0027re operating at a level most peers don\u0027t reach.",
   "Your \x7b\x7bmetric\x7d\x7d puts you in elite territory — keep doing exactly what you are doing."]

/-- growthTemplates (source lines 404-407). -/
def growthTemplates : List String :=
  ["The data suggests \x7b\x7bmetric\x7d\x7d is your biggest opportunity — tightening this up would level you up fast.",
   "One small improvement in \x7b\x7bmetric\x7d\x7d could unlock your next archetype."]

/-- metricToPillar (source lines 409-416). -/
def metricToPillar (key : MetricKey) : String :=
  if key = MetricKey.deconScans ∨ key = MetricKey.sinkInst ∨ key = MetricKey.sinkTrays then
    "Decontamination"
  else if key = MetricKey.assembledTrays ∨ key = MetricKey.assembledPacks ∨ key = MetricKey.assembledInst then
    "Assembly"
  else if key = MetricKey.sterilizerLoads ∨ key = MetricKey.itemsSterilized ∨ key = MetricKey.deliverScans then
    "Sterilization"
  else if key = MetricKey.defectRate ∨ key = MetricKey.assemblyMissingInst then
    "Quality"
  else if key = MetricKey.workedHoursPerUnit then
    "Efficiency"
  else
    "Performance"

/-- Stable insert for a descending sort keyed by f: the new element goes
in front of the first element whose key it matches or exceeds, so that
elements inserted later (which come earlier in the original list, since
the sort folds from the right) precede equal-keyed ones. -/
def insertDescBy {α : Type} (f : α → ℚ) (x : α) : List α → List α
  | [] => [x]
  | y :: ys => if f x ≥ f y then x :: y :: ys else y :: insertDescBy f x ys

/-- Model of the stable JS sort with comparator (a, b) => f b - f a
(descending by key f). -/
def sortDescBy {α : Type} (f : α → ℚ) : List α → List α
  | [] => []
  | x :: xs => insertDescBy f x (sortDescBy f xs)

/-- Model of the stable JS sort with comparator (a, b) => f a - f b
(ascending by key f): the same stable order as descending by -f. -/
def sortAscBy {α : Type} (f : α → ℚ) (l : List α) : List α :=
  sortDescBy (fun a => -(f a)) l

/-- The per-person aggregate computed by the first map of buildReport
(source lines 468-529). -/
structure BaseUser where
  id : String
  name : String
  techLabel : String
  hoursWorked : ℚ
  metrics : MetricKey → ℚ
  pillarTotals : PillarKey → ℚ

/-- The body of the first map of buildReport (source lines 468-529):
normalization, metric derivation and pillar totals for one row. -/
def baseUserOf (index : Nat) (row : RawRow) : BaseUser :=
  let timekeepingHours := toNumberQ row.hoursWorked
  let activityTimeMins := toNumberQ row.activityTimeMins
  let hoursWorked := timekeepingHours + activityTimeMins / 60
  let deconScans := toNumberQ row.deconScans
  let sinkInst := toNumberQ row.sinkInst
  let sinkTrays := toNumberQ row.sinkTrays
  let assembledTrays := toNumberQ row.assembledTrays
  let assembledPacks := toNumberQ row.assembledPacks
  let assembledInst := toNumberQ row.assembledInst
  let sterilizerLoads := toNumberQ row.sterilizerLoads
  let itemsSterilized := toNumberQ row.itemsSterilized
  let deliverScans := toNumberQ row.deliverScans
  let assemblyMissingInst := toNumberQ row.assemblyMissingInst
  let unitsOfService := sinkInst * (1 / 2) + assembledInst
  let workedHoursPerUnit := safeDiv hoursWorked unitsOfService 1
  let missingInstRate := safeDiv assemblyMissingInst assembledInst 1
  { id := row.userId,
    name := if row.userName.trim = "" then "Tech " ++ toString (index + 1) else row.userName.trim,
    techLabel := "Tech #" ++ toString (index + 1),
    hoursWorked := hoursWorked,
    metrics := fun k => match k with
      | MetricKey.deconScans => deconScans
      | MetricKey.sinkInst => sinkInst
      | MetricKey.sinkTrays => sinkTrays
      | MetricKey.assembledTrays => assembledTrays
      | MetricKey.assembledPacks => assembledPacks
      | MetricKey.assembledInst => assembledInst
      | MetricKey.workedHoursPerUnit => workedHoursPerUnit
      | MetricKey.assemblyMissingInst => missingInstRate
      | MetricKey.sterilizerLoads => sterilizerLoads
      | MetricKey.itemsSterilized => itemsSterilized
      | MetricKey.deliverScans => deliverScans
      | MetricKey.defectRate => toNumberQ row.defectRate,
    pillarTotals := buildPillarTotals deconScans sinkInst sinkTrays assembledInst
      assembledTrays assembledPacks itemsSterilized sterilizerLoads deliverScans }

/-- baseUsers (source line 468): the first map, with indices. -/
def baseUsersOf (rows : List RawRow) : List BaseUser :=
  rows.enum.map (fun p => baseUserOf p.1 p.2)

/-- metricValues (source line 531). -/
def metricValuesOf (rows : List RawRow) : List (MetricKey → ℚ) :=
  (baseUsersOf rows).map (fun u => u.metrics)

/-- pillarTotalsList (source line 532). -/
def pillarTotalsListOf (rows : List RawRow) : List (PillarKey → ℚ) :=
  (baseUsersOf rows).map (fun u => u.pillarTotals)

/-- medians (source line 534). -/
def mediansOf (rows : List RawRow) : MetricKey → ℚ :=
  buildMedianMap (metricValuesOf rows)

/-- pillarMedians (source line 535). -/
def pillarMediansOf (rows : List RawRow) : PillarKey → ℚ :=
  buildMedianMap (pillarTotalsListOf rows)

/-- sortedMetricValues (source line 537). -/
def sortedMetricValuesOf (rows : List RawRow) : MetricKey → List ℚ :=
  buildSortedValues (metricValuesOf rows)

/-- sortedPillarValues (source line 538). -/
def sortedPillarValuesOf (rows : List RawRow) : PillarKey → List ℚ :=
  buildSortedValues (pillarTotalsListOf rows)

/-- pillarRatesByUser (source lines 540-542). -/
def pillarRatesByUserOf (rows : List RawRow) : List (PillarKey → ℚ) :=
  (baseUsersOf rows).map (fun u => buildPillarRates u.pillarTotals u.hoursWorked)

/-- sortedPillarRateValues (source line 543). -/
def sortedPillarRateValuesOf (rows : List RawRow) : PillarKey → List ℚ :=
  buildSortedValues (pillarRatesByUserOf rows)

/-- The six per-person composite score slots (source lines 158-165). -/
structure UserScores where
  productivity : ℚ
  quality : ℚ
  versatility : ℚ
  productivityPercentile : ℚ
  qualityPercentile : ℚ
  versatilityPercentile : ℚ

/-- A person after the first percentile pass (source lines 545-590). -/
structure UserP extends BaseUser where
  percentiles : MetricKey → ℚ
  pillarPercentiles : PillarKey → ℚ
  pillarsAboveMedian : PillarKey → Bool
  scores : UserScores

/-- Number of pillars at or above the cohort median for a user. -/
def pillarCountOf (aboveMedian : PillarKey → Bool) : Nat :=
  (if aboveMedian PillarKey.decon then 1 else 0) +
  (if aboveMedian PillarKey.assembly then 1 else 0) +
  (if aboveMedian PillarKey.sterilize then 1 else 0)

/-- The body of the second map of buildReport (source lines 545-590):
percentiles, above-median flags and the three composite scores.  The
score-percentile slots are placeholders (0) until the second pass. -/
def userPOf (rows : List RawRow) (hoursWorkedAvailable : Bool) (index : Nat)
    (user : BaseUser) : UserP :=
  let percentiles := buildPercentiles user.metrics (sortedMetricValuesOf rows) METRIC_HIGHER_BETTER
  let pillarPercentiles :=
    buildPercentiles user.pillarTotals (sortedPillarValuesOf rows) PILLAR_HIGHER_BETTER
  let pillarRatePercentiles :=
    buildPercentiles ((pillarRatesByUserOf rows).getD index (fun _ => 0))
      (sortedPillarRateValuesOf rows) PILLAR_HIGHER_BETTER
  let pillarsAboveMedian : PillarKey → Bool :=
    fun p => decide (user.pillarTotals p ≥ pillarMediansOf rows p)
  let pillarCount := pillarCountOf pillarsAboveMedian
  let productivity :=
    if hoursWorkedAvailable then
      (pillarRatePercentiles PillarKey.decon + pillarRatePercentiles PillarKey.assembly +
        pillarRatePercentiles PillarKey.sterilize) / 3
    else
      (pillarPercentiles PillarKey.decon + pillarPercentiles PillarKey.assembly +
        pillarPercentiles PillarKey.sterilize) / 3
  let quality := percentiles MetricKey.defectRate * (7 / 10) +
    percentiles MetricKey.assemblyMissingInst * (3 / 10)
  let versatility := ((pillarCount : ℚ) / 3) * 100
  { toBaseUser := user,
    percentiles := percentiles,
    pillarPercentiles := pillarPercentiles,
    pillarsAboveMedian := pillarsAboveMedian,
    scores :=
      { productivity := productivity, quality := quality, versatility := versatility,
        productivityPercentile := 0, qualityPercentile := 0, versatilityPercentile := 0 } }

/-- usersWithPercentiles (source lines 545-590). -/
def usersWithPercentilesOf (rows : List RawRow) (hoursWorkedAvailable : Bool) : List UserP :=
  (baseUsersOf rows).enum.map (fun p => userPOf rows hoursWorkedAvailable p.1 p.2)

/-- The three composite score keys (source lines 592-593). -/
inductive ScoreKey where
  | productivity | quality | versatility
deriving DecidableEq

/-- Composite score of a user by key. -/
def scoreValue (u : UserP) : ScoreKey → ℚ := fun k => match k with
  | ScoreKey.productivity => u.scores.productivity
  | ScoreKey.quality => u.scores.quality
  | ScoreKey.versatility => u.scores.versatility

/-- scoreSorted (source lines 595-598): ascending cohort sequence of each
composite score. -/
def scoreSortedOf (rows : List RawRow) (hoursWorkedAvailable : Bool) : ScoreKey → List ℚ :=
  fun k => List.insertionSort (· ≤ ·)
    ((usersWithPercentilesOf rows hoursWorkedAvailable).map (fun u => scoreValue u k))

/-- The archetype-key selection of buildReport (source lines 615-644):
utility for balanced multi-pillar users, highest pillar percentile when
nothing was produced (stable descending sort over the fixed pillar
order, first element), otherwise the pillar holding the top total with
assembly checked before sterilize and decon as fallback. -/
def archetypeKeyOf (pillarTotals : PillarKey → ℚ) (pillarPercentiles : PillarKey → ℚ)
    (pillarCount : Nat) : ArchetypeKey :=
  let contributionsTotal := pillarTotals PillarKey.decon + pillarTotals PillarKey.assembly +
    pillarTotals PillarKey.sterilize
  let topContribution := max (pillarTotals PillarKey.decon)
    (max (pillarTotals PillarKey.assembly) (pillarTotals PillarKey.sterilize))
  let topShare := if contributionsTotal = 0 then 0 else topContribution / contributionsTotal
  if topShare < 2 / 5 ∧ pillarCount ≥ 2 then ArchetypeKey.utility
  else if contributionsTotal = 0 then
    let ranked := sortDescBy (fun z => z.2)
      [(PillarKey.decon, pillarPercentiles PillarKey.decon),
       (PillarKey.assembly, pillarPercentiles PillarKey.assembly),
       (PillarKey.sterilize, pillarPercentiles PillarKey.sterilize)]
    match (ranked.headD (PillarKey.decon, 0)).1 with
    | PillarKey.decon => ArchetypeKey.decon
    | PillarKey.assembly => ArchetypeKey.assembly
    | PillarKey.sterilize => ArchetypeKey.sterilize
  else if topContribution = pillarTotals PillarKey.assembly then ArchetypeKey.assembly
  else if topContribution = pillarTotals PillarKey.sterilize then ArchetypeKey.sterilize
  else ArchetypeKey.decon

/-- String form of an archetype key, for seed composition. -/
def archetypeKeyStr : ArchetypeKey → String
  | ArchetypeKey.decon => "decon"
  | ArchetypeKey.assembly => "assembly"
  | ArchetypeKey.sterilize => "sterilize"
  | ArchetypeKey.utility => "utility"

/-- archetypeIconMap (source lines 651-656). -/
def archetypeIcon : ArchetypeKey → String
  | ArchetypeKey.decon => "🧽"
  | ArchetypeKey.assembly => "🛠️"
  | ArchetypeKey.sterilize => "🚢"
  | ArchetypeKey.utility => "🧩"

/-- String form of a badge category, for seed composition. -/
def strengthCategoryStr : StrengthCategory → String
  | StrengthCategory.quality => "quality"
  | StrengthCategory.speed => "speed"
  | StrengthCategory.decon => "decon"
  | StrengthCategory.sterilize => "sterilize"
  | StrengthCategory.multi => "multi"

/-- The chosen archetype of a user (source lines 657-660). -/
structure Archetype where
  label : String
  icon : String
  description : String

/-- One entry of the ranked metric lists used for strength/opportunity
selection (source lines 673-687). -/
structure MetricRank where
  key : MetricKey
  label : String
  percentile : ℚ

/-- The ranked metric list: DEFAULT_METRICS mapped to key, label and the
percentile of the given user. -/
def metricRanksOf (percentiles : MetricKey → ℚ) : List MetricRank :=
  DEFAULT_METRICS.map (fun m =>
    { key := m.key, label := m.label, percentile := percentiles m.key })

/-- The strength pick (source lines 673-679): first element after the
stable descending sort by percentile. -/
def strengthOf (percentiles : MetricKey → ℚ) : Option MetricRank :=
  (sortDescBy (fun z => z.percentile) (metricRanksOf percentiles)).head?

/-- The opportunity pick (source lines 681-687): first element after the
stable ascending sort by percentile. -/
def opportunityOf (percentiles : MetricKey → ℚ) : Option MetricRank :=
  (sortAscBy (fun z => z.percentile) (metricRanksOf percentiles)).head?

/-- The full computed profile of a person (source lines 167-187). -/
structure UserRecord extends UserP where
  archetype : Archetype
  badges : List String
  strengths : List String
  opportunity : String
  coachingSummary : String

/-- The body of the third map of buildReport (source lines 600-719):
score percentiles, archetype, badges and coaching narrative. -/
def userRecordOf (scoreSorted : ScoreKey → List ℚ) (user : UserP) : UserRecord :=
  let productivityPercentile :=
    percentileFromSorted user.scores.productivity (scoreSorted ScoreKey.productivity) true
  let qualityPercentile :=
    percentileFromSorted user.scores.quality (scoreSorted ScoreKey.quality) true
  let versatilityPercentile :=
    percentileFromSorted user.scores.versatility (scoreSorted ScoreKey.versatility) true
  let pillarCount := pillarCountOf user.pillarsAboveMedian
  let archetypeKey := archetypeKeyOf user.pillarTotals user.pillarPercentiles pillarCount
  let userSeed := (if user.id = "" then user.techLabel else user.id) ++ "-" ++ user.name
  let archetypeOption := pickBySeed (ARCHETYPE_OPTIONS archetypeKey)
    (userSeed ++ "-" ++ archetypeKeyStr archetypeKey ++ "-archetype")
    { label := "", description := "" }
  let archetype : Archetype :=
    { label := archetypeOption.label, icon := archetypeIcon archetypeKey,
      description := archetypeOption.description }
  let eligibleStrengths : List StrengthCategory :=
    (if user.percentiles MetricKey.defectRate ≥ 90 then [StrengthCategory.quality] else []) ++
    (if user.percentiles MetricKey.assembledInst ≥ 90 then [StrengthCategory.speed] else []) ++
    (if user.pillarPercentiles PillarKey.decon ≥ 90 then [StrengthCategory.decon] else []) ++
    (if user.pillarPercentiles PillarKey.sterilize ≥ 90 then [StrengthCategory.sterilize] else []) ++
    (if pillarCount ≥ 2 then [StrengthCategory.multi] else [])
  let badges := eligibleStrengths.map (fun c =>
    pickBySeed (STRENGTH_TITLES c) (userSeed ++ "-" ++ strengthCategoryStr c ++ "-strength") "")
  let strength := strengthOf user.percentiles
  let opportunity := opportunityOf user.percentiles
  let strengthLabel := (strength.map (fun s => s.label)).getD ("this area")
  let opportunityLabel := (opportunity.map (fun s => s.label)).getD ("this area")
  let strengthPillar := match strength with
    | some s => metricToPillar s.key
    | none => "performance"
  let strengthLine :=
    ((pickBySeed strengthTemplates (userSeed ++ "-" ++ strengthPillar ++ "-strength-template") "").replace
      ("\x7b\x7bpillar\x7d\x7d") strengthPillar).replace ("\x7b\x7bmetric\x7d\x7d") strengthLabel
  let growthLine :=
    (pickBySeed growthTemplates (userSeed ++ "-" ++ opportunityLabel ++ "-growth-template") "").replace
      ("\x7b\x7bmetric\x7d\x7d") opportunityLabel
  { toUserP :=
      { user with scores :=
        { user.scores with
          productivityPercentile := productivityPercentile
          qualityPercentile := qualityPercentile
          versatilityPercentile := versatilityPercentile } },
    archetype := archetype,
    badges := badges,
    strengths := if strengthLabel = "" then [] else [strengthLabel],
    opportunity := opportunityLabel,
    coachingSummary := strengthLine ++ " " ++ growthLine }

/-- usersWithScores (source lines 600-719). -/
def usersWithScoresOf (rows : List RawRow) (hoursWorkedAvailable : Bool) : List UserRecord :=
  (usersWithPercentilesOf rows hoursWorkedAvailable).map
    (userRecordOf (scoreSortedOf rows hoursWorkedAvailable))

/-- The full output for the cohort (source lines 189-194). -/
structure ProcessedReport where
  users : List UserRecord
  medians : MetricKey → ℚ
  pillarMedians : PillarKey → ℚ
  metricDefinitions : List MetricDefinition

/-- buildReport (source lines 463-727).  The options default
hoursWorkedAvailable ?? true is resolved by the caller, so the flag is
an explicit argument here. -/
def buildReport (rows : List RawRow) (hoursWorkedAvailable : Bool) : ProcessedReport :=
  { users := usersWithScoresOf rows hoursWorkedAvailable,
    medians := mediansOf rows,
    pillarMedians := pillarMediansOf rows,
    metricDefinitions := DEFAULT_METRICS }

/-- A JavaScript value as it can appear in an untyped input row
(the argument of coerceRow, source line 437).  A string carries the rational
its host Number() conversion yields, or none when that conversion gives
NaN; the nan constructor stands for any non-finite number. -/
inductive JSValue where
  | undef
  | null
  | num (q : ℚ)
  | nan
  | str (s : String) (numVal : Option ℚ)
deriving DecidableEq

/-- The JS Number() conversion: none encodes a non-finite result. -/
def jsNumber : JSValue → Option ℚ
  | JSValue.undef => none
  | JSValue.null => some 0
  | JSValue.num q => some q
  | JSValue.nan => none
  | JSValue.str _ nv => nv

/-- The JS String() conversion. -/
def jsString : JSValue → String
  | JSValue.undef => "undefined"
  | JSValue.null => "null"
  | JSValue.num q => toString q
  | JSValue.nan => "NaN"
  | JSValue.str s _ => s

/-- toNumber (source lines 196-200) on an arbitrary value. -/
def toNumber (v : JSValue) : ℚ :=
  match jsNumber v with
  | none => 0
  | some q => max 0 q

/-- The JS nullish-coalescing operator v ?? d. -/
def coalesce (v d : JSValue) : JSValue :=
  match v with
  | JSValue.undef => d
  | JSValue.null => d
  | _ => v

/-- An untyped input row: a mapping from field names to values, with
absent fields represented by undefined, as a JS property read gives. -/
def JSRow : Type := String → JSValue

/-- coerceRow (source lines 437-457).  Note: the two string fields are
only coerced to strings, not trimmed; trimming of the user name happens
later, inside buildReport. -/
def coerceRow (row : JSRow) : RawRow :=
  { userId := jsString (coalesce (row ("User ID")) (JSValue.str ("") (some 0))),
    userName := jsString (coalesce (row ("User Name")) (JSValue.str ("") (some 0))),
    hoursWorked := toNumber (row ("Hours Worked")),
    numofEvents := toNumber (row ("NumofEvents")),
    defectRate := toNumber (row ("Defect Rate")),
    deconScans := toNumber (row ("Decon Scans")),
    sinkInst := toNumber (row ("Sink Inst")),
    sinkTrays := toNumber (row ("Sink Trays")),
    assembledTrays := toNumber (row ("Assembled Trays")),
    assembledPacks := toNumber (row ("Assembled Packs")),
    assembledInst := toNumber (row ("Assembled Inst")),
    assemblyMissingInst := toNumber (row ("Assembly Missing Inst")),
    sterilizerLoads := toNumber (row ("Sterilizer Loads")),
    itemsSterilized := toNumber (row ("Items Sterilized")),
    deliverScans := toNumber (row ("Deliver Scans")),
    activityCount := toNumber (row ("Activity Count")),
    activityTimeMins := toNumber (row ("Activity Time (Mins)")) }

/-- Point update of an untyped row. -/
def updateRow (row : JSRow) (key : String) (v : JSValue) : JSRow :=
  fun k => if k = key then v else row k

/-! ### Correctness of the binary searches -/

/-- In a sorted list, getD with default 0 is monotone on in-range indices. -/
lemma sorted_getD_mono (l : List ℚ) (hs : l.Sorted (· ≤ ·)) (i j : Nat)
    (hij : i ≤ j) (hj : j < l.length) : l.getD i 0 ≤ l.getD j 0 := by
  have hi : i < l.length := lt_of_le_of_lt hij hj
  rw [List.getD_eq_getElem l 0 hi, List.getD_eq_getElem l 0 hj]
  rcases eq_or_lt_of_le hij with rfl | hlt
  · exact le_refl _
  · have := List.Sorted.rel_get_of_lt hs (a := ⟨i, hi⟩) (b := ⟨j, hj⟩) (Fin.mk_lt_mk.mpr hlt)
    simpa [List.get_eq_getElem] using this

/-- Characterisation of countP for a list split at an index below which
the predicate always holds and at or above which it never does. -/
lemma countP_eq_of_split (l : List ℚ) (p : ℚ → Bool) (k : Nat) (hk : k ≤ l.length)
    (h1 : ∀ i, i < k → p (l.getD i 0) = true)
    (h2 : ∀ i, k ≤ i → i < l.length → p (l.getD i 0) = false) :
    l.countP p = k := by
  have hsplit : l.countP p = (l.take k).countP p + (l.drop k).countP p := by
    conv_lhs => rw [← List.take_append_drop k l]
    exact List.countP_append p _ _
  have htake : (l.take k).countP p = k := by
    rw [List.countP_eq_length.mpr, List.length_take]
    · exact Nat.min_eq_left hk
    · intro a ha
      obtain ⟨i, hi, rfl⟩ := List.mem_iff_getElem.mp ha
      have hik : i < k := by
        have := hi; rw [List.length_take] at this; omega
      have hil : i < l.length := lt_of_lt_of_le hik hk
      rw [List.getElem_take]
      have := h1 i hik
      rwa [List.getD_eq_getElem l 0 hil] at this
  have hdrop : (l.drop k).countP p = 0 := by
    rw [List.countP_eq_zero]
    intro a ha
    obtain ⟨i, hi, rfl⟩ := List.mem_iff_getElem.mp ha
    have hil : k + i < l.length := by
      have := hi; rw [List.length_drop] at this; omega
    rw [List.getElem_drop]
    have := h2 (k + i) (Nat.le_add_right k i) hil
    rw [List.getD_eq_getElem l 0 hil] at this
    simp [this]
  omega

/-- The parameterised binary-search loop computes countP when the
predicate is downward closed along a sorted list and the initial
invariants hold. -/
lemma bsearchGo_eq_countP (values : List ℚ) (p : ℚ → Bool)
    (hmono : ∀ x y : ℚ, x ≤ y → p y = true → p x = true)
    (hs : values.Sorted (· ≤ ·)) :
    ∀ (fuel low high : Nat), low ≤ high → high ≤ values.length → high - low ≤ fuel →
      (∀ i, i < low → p (values.getD i 0) = true) →
      (∀ i, high ≤ i → i < values.length → p (values.getD i 0) = false) →
      bsearchGo values p fuel low high = values.countP p := by
  intro fuel
  induction fuel with
  | zero =>
    intro low high hlh hhl hfuel hlo hhi
    have heq : low = high := by omega
    subst heq
    simp only [bsearchGo]
    exact (countP_eq_of_split values p low (le_trans (le_refl _) hhl)
      (fun i hi => hlo i hi) (fun i hi hil => hhi i hi hil)).symm
  | succ fuel ih =>
    intro low high hlh hhl hfuel hlo hhi
    simp only [bsearchGo]
    by_cases hcase : low < high
    · simp only [if_pos hcase]
      have hmid1 : low ≤ (low + high) / 2 := by omega
      have hmid2 : (low + high) / 2 < high := by omega
      have hmidlen : (low + high) / 2 < values.length := lt_of_lt_of_le hmid2 hhl
      by_cases hp : p (values.getD ((low + high) / 2) 0) = true
      · simp only [hp, if_true]
        apply ih ((low + high) / 2 + 1) high (by omega) hhl (by omega)
        · intro i hi
          rcases lt_or_ge i low with h | h
          · exact hlo i h
          · exact hmono _ _ (sorted_getD_mono values hs i ((low + high) / 2) (by omega) hmidlen) hp
        · exact hhi
      · rw [Bool.not_eq_true] at hp
        simp only [hp, if_false]
        apply ih low ((low + high) / 2) (by omega) (by omega) (by omega)
        · exact hlo
        · intro i hi hilen
          by_cases hpv : p (values.getD i 0) = true
          · exfalso
            have hmid' := hmono _ _ (sorted_getD_mono values hs ((low + high) / 2) i hi hilen) hpv
            rw [hp] at hmid'
            exact Bool.false_ne_true hmid'
          · rwa [Bool.not_eq_true] at hpv
    · simp only [if_neg hcase]
      have heq : low = high := by omega
      subst heq
      exact (countP_eq_of_split values p low hhl
        (fun i hi => hlo i hi) (fun i hi hil => hhi i hi hil)).symm

/-- On a sorted list, lowerBound returns the number of elements strictly
below the target. -/
lemma lowerBound_eq_countP (l : List ℚ) (v : ℚ) (hs : l.Sorted (· ≤ ·)) :
    lowerBound l v = l.countP (fun x => decide (x < v)) := by
  apply bsearchGo_eq_countP l _ _ hs l.length 0 l.length (Nat.zero_le _) (le_refl _) (by omega)
  · intro i hi
    exact absurd hi (Nat.not_lt_zero i)
  · intro i hi hil
    omega
  · intro x y hxy hy
    simp only [decide_eq_true_eq] at *
    exact lt_of_le_of_lt hxy hy

/-- On a sorted list, upperBound returns the number of elements at or
below the target. -/
lemma upperBound_eq_countP (l : List ℚ) (v : ℚ) (hs : l.Sorted (· ≤ ·)) :
    upperBound l v = l.countP (fun x => decide (x ≤ v)) := by
  apply bsearchGo_eq_countP l _ _ hs l.length 0 l.length (Nat.zero_le _) (le_refl _) (by omega)
  · intro i hi
    exact absurd hi (Nat.not_lt_zero i)
  · intro i hi hil
    omega
  · intro x y hxy hy
    simp only [decide_eq_true_eq] at *
    exact le_trans hxy hy

/-- The mid-rank percentile exactly as the specification states it, with
the bounds written as counts over the cohort rather than binary
searches. -/
def percentileSpec (value : ℚ) (cohort : List ℚ) (higherBetter : Bool) : ℚ :=
  if cohort.length = 0 then 0
  else
    let lower : ℚ := cohort.countP (fun x => decide (x < value))
    let upper : ℚ := cohort.countP (fun x => decide (x ≤ value))
    let p := ((lower + (1 / 2) * (upper - lower)) / (cohort.length : ℚ)) * 100
    let oriented := if higherBetter then p else 100 - p
    max 0 (min 100 oriented)

/-- On a sorted cohort the implemented percentile agrees with the
count-based specification formula. -/
lemma percentileFromSorted_eq_spec (v : ℚ) (l : List ℚ) (hb : Bool)
    (hs : l.Sorted (· ≤ ·)) :
    percentileFromSorted v l hb = percentileSpec v l hb := by
  unfold percentileFromSorted percentileSpec
  rw [lowerBound_eq_countP l v hs, upperBound_eq_countP l v hs]

/-! ### Percentile arithmetic -/

/-- The final clamp of the percentile is monotone. -/
lemma clamp_mono {x y : ℚ} (h : x ≤ y) : max 0 (min 100 x) ≤ max 0 (min 100 y) :=
  max_le_max (le_refl 0) (min_le_min (le_refl 100) h)

/-- The clamp is the identity strictly inside the band. -/
lemma clamp_between {x : ℚ} (h0 : 0 < x) (h1 : x < 100) :
    0 < max 0 (min 100 x) ∧ max 0 (min 100 x) < 100 := by
  rw [min_eq_right h1.le, max_eq_right h0.le]
  exact ⟨h0, h1⟩

/-- Count of strictly-smaller elements is monotone in the threshold. -/
lemma countP_lt_mono (l : List ℚ) {a b : ℚ} (hba : b ≤ a) :
    l.countP (fun x => decide (x < b)) ≤ l.countP (fun x => decide (x < a)) := by
  apply List.countP_mono_left
  intro x _ h
  simp only [decide_eq_true_eq] at *
  linarith

/-- Count of at-most elements is monotone in the threshold. -/
lemma countP_le_mono (l : List ℚ) {a b : ℚ} (hba : b ≤ a) :
    l.countP (fun x => decide (x ≤ b)) ≤ l.countP (fun x => decide (x ≤ a)) := by
  apply List.countP_mono_left
  intro x _ h
  simp only [decide_eq_true_eq] at *
  linarith

/-- A member contributes a full rank to the at-most count beyond the
strictly-below count. -/
lemma countP_lt_add_one_le_countP_le (l : List ℚ) (v : ℚ) (hv : v ∈ l) :
    l.countP (fun x => decide (x < v)) + 1 ≤ l.countP (fun x => decide (x ≤ v)) := by
  induction l with
  | nil => cases hv
  | cons x xs ih =>
    rw [List.countP_cons, List.countP_cons]
    have hmono : xs.countP (fun y => decide (y < v)) ≤ xs.countP (fun y => decide (y ≤ v)) := by
      apply List.countP_mono_left
      intro a _ h
      simp only [decide_eq_true_eq] at *
      linarith
    rcases List.mem_cons.mp hv with heq | hmem
    · subst heq
      have e1 : (decide (v < v)) = false := by simp
      have e2 : (decide (v ≤ v)) = true := by simp
      rw [e1, e2]
      simp only [Bool.false_eq_true, if_false, if_true]
      omega
    · have hrec := ih hmem
      by_cases hlt : x < v
      · have e1 : (decide (x < v)) = true := by simp [hlt]
        have e2 : (decide (x ≤ v)) = true := by simp [hlt.le]
        rw [e1, e2]
        simp only [if_true]
        omega
      · have e1 : (decide (x < v)) = false := by simp [hlt]
        by_cases hle : x ≤ v
        · have e2 : (decide (x ≤ v)) = true := by simp [hle]
          rw [e1, e2]
          simp only [Bool.false_eq_true, if_false, if_true]
          omega
        · have e2 : (decide (x ≤ v)) = false := by simp [hle]
          rw [e1, e2]
          simp only [Bool.false_eq_true, if_false]
          omega

/-- The raw mid-rank value is monotone in both counts. -/
lemma midrank_le_midrank (Lb Ub La Ua : Nat) (n : ℚ) (hn : 0 < n)
    (hL : Lb ≤ La) (hU : Ub ≤ Ua) :
    (((Lb : ℚ) + (1 / 2) * ((Ub : ℚ) - (Lb : ℚ))) / n) * 100 ≤
      (((La : ℚ) + (1 / 2) * ((Ua : ℚ) - (La : ℚ))) / n) * 100 := by
  have hLq : (Lb : ℚ) ≤ (La : ℚ) := by exact_mod_cast hL
  have hUq : (Ub : ℚ) ≤ (Ua : ℚ) := by exact_mod_cast hU
  have hnum : (Lb : ℚ) + (1 / 2) * ((Ub : ℚ) - (Lb : ℚ)) ≤
      (La : ℚ) + (1 / 2) * ((Ua : ℚ) - (La : ℚ)) := by linarith
  have hdiv : ((Lb : ℚ) + (1 / 2) * ((Ub : ℚ) - (Lb : ℚ))) / n ≤
      ((La : ℚ) + (1 / 2) * ((Ua : ℚ) - (La : ℚ))) / n := by gcongr
  exact mul_le_mul_of_nonneg_right hdiv (by norm_num)

/-- On a sorted cohort the oriented, clamped percentile is monotone in
the direction of the orientation. -/
lemma percentileFromSorted_mono (l : List ℚ) (hs : l.Sorted (· ≤ ·)) {a b : ℚ}
    (hba : b ≤ a) :
    percentileFromSorted b l true ≤ percentileFromSorted a l true ∧
    percentileFromSorted a l false ≤ percentileFromSorted b l false := by
  by_cases h0 : l.length = 0
  · simp [percentileFromSorted, h0]
  · rw [percentileFromSorted_eq_spec b l true hs, percentileFromSorted_eq_spec a l true hs,
      percentileFromSorted_eq_spec a l false hs, percentileFromSorted_eq_spec b l false hs]
    unfold percentileSpec
    simp only [if_neg h0]
    have hnq : (0 : ℚ) < (l.length : ℚ) := by
      have : 0 < l.length := Nat.pos_of_ne_zero h0
      exact_mod_cast this
    have hple := midrank_le_midrank
      (l.countP (fun x => decide (x < b))) (l.countP (fun x => decide (x ≤ b)))
      (l.countP (fun x => decide (x < a))) (l.countP (fun x => decide (x ≤ a)))
      (l.length : ℚ) hnq (countP_lt_mono l hba) (countP_le_mono l hba)
    constructor
    · simp only [if_true]
      exact clamp_mono hple
    · apply clamp_mono
      rw [if_neg Bool.false_ne_true, if_neg Bool.false_ne_true]
      linarith

/-- The own percentile of a cohort member lies strictly between 0 and 100:
its own value contributes half a rank to the mid-rank numerator, and at
least one value (itself) is not strictly below it. -/
lemma percentileFromSorted_mem_between (v : ℚ) (l : List ℚ) (hb : Bool)
    (hs : l.Sorted (· ≤ ·)) (hv : v ∈ l) :
    0 < percentileFromSorted v l hb ∧ percentileFromSorted v l hb < 100 := by
  have hn : l.length ≠ 0 := by
    have := List.length_pos.mpr (List.ne_nil_of_mem hv)
    omega
  rw [percentileFromSorted_eq_spec v l hb hs]
  unfold percentileSpec
  simp only [if_neg hn]
  have hLU := countP_lt_add_one_le_countP_le l v hv
  have hUn : l.countP (fun x => decide (x ≤ v)) ≤ l.length := List.countP_le_length _
  have hnq : (0 : ℚ) < (l.length : ℚ) := by
    have : 0 < l.length := Nat.pos_of_ne_zero hn
    exact_mod_cast this
  have hq1 : (1 : ℚ) ≤ (l.countP (fun x => decide (x < v)) : ℚ) +
      (l.countP (fun x => decide (x ≤ v)) : ℚ) := by
    have : 1 ≤ l.countP (fun x => decide (x < v)) + l.countP (fun x => decide (x ≤ v)) := by
      omega
    exact_mod_cast this
  have hq2 : (l.countP (fun x => decide (x < v)) : ℚ) +
      (l.countP (fun x => decide (x ≤ v)) : ℚ) ≤ 2 * (l.length : ℚ) - 1 := by
    have h2 : l.countP (fun x => decide (x < v)) + l.countP (fun x => decide (x ≤ v)) + 1 ≤
        2 * l.length := by omega
    have h2q := (Nat.cast_le (α := ℚ)).mpr h2
    push_cast at h2q
    linarith
  have hp0 : 0 < ((l.countP (fun x => decide (x < v)) : ℚ) +
      (1 / 2) * ((l.countP (fun x => decide (x ≤ v)) : ℚ) -
        (l.countP (fun x => decide (x < v)) : ℚ))) / (l.length : ℚ) * 100 := by
    apply mul_pos _ (by norm_num)
    apply div_pos _ hnq
    linarith
  have hp1 : ((l.countP (fun x => decide (x < v)) : ℚ) +
      (1 / 2) * ((l.countP (fun x => decide (x ≤ v)) : ℚ) -
        (l.countP (fun x => decide (x < v)) : ℚ))) / (l.length : ℚ) * 100 < 100 := by
    have hlt : ((l.countP (fun x => decide (x < v)) : ℚ) +
        (1 / 2) * ((l.countP (fun x => decide (x ≤ v)) : ℚ) -
          (l.countP (fun x => decide (x < v)) : ℚ))) / (l.length : ℚ) < 1 := by
      rw [div_lt_one hnq]
      linarith
    have := mul_lt_mul_of_pos_right hlt (show (0 : ℚ) < 100 by norm_num)
    linarith
  cases hb
  · rw [if_neg Bool.false_ne_true]
    exact clamp_between (by linarith) (by linarith)
  · rw [if_pos rfl]
    exact clamp_between hp0 hp1

/-- C1.  For every value and every sorted cohort, the implemented
percentile equals the spec formula p = ((lower + 0.5*(upper-lower)) / n)
* 100 with lower the strictly-below count and upper the at-most count,
oriented by higher-is-better, clamped to the 0-100 band, 0 on an empty
cohort; and equal values receive identical percentiles. -/
theorem c1_percentile_formula (v : ℚ) (l : List ℚ) (hb : Bool)
    (hs : l.Sorted (· ≤ ·)) :
    percentileFromSorted v l hb = percentileSpec v l hb ∧
    ∀ w : ℚ, w = v → percentileFromSorted w l hb = percentileFromSorted v l hb := by
  refine ⟨percentileFromSorted_eq_spec v l hb hs, ?_⟩
  intro w hw
  rw [hw]

/-- Concrete instance of c1_percentile_formula. -/
theorem c1_percentile_formula_witness :
    percentileFromSorted 2 [1, 2] true = percentileSpec 2 [1, 2] true ∧
    ∀ w : ℚ, w = 2 → percentileFromSorted w [1, 2] true = percentileFromSorted 2 [1, 2] true :=
  c1_percentile_formula 2 [1, 2] true (by decide)

/-- C3.  For every sorted cohort, the oriented percentile is monotone in
the declared orientation: for higher-is-better a > b gives
percentile(a) at least percentile(b); for lower-is-better the
comparison is reversed. -/
theorem c3_percentile_monotone (l : List ℚ) (a b : ℚ) (hs : l.Sorted (· ≤ ·))
    (hab : a > b) :
    percentileFromSorted b l true ≤ percentileFromSorted a l true ∧
    percentileFromSorted a l false ≤ percentileFromSorted b l false :=
  percentileFromSorted_mono l hs hab.le

/-- Concrete instance of c3_percentile_monotone. -/
theorem c3_percentile_monotone_witness :
    percentileFromSorted 1 [1, 2] true ≤ percentileFromSorted 2 [1, 2] true ∧
    percentileFromSorted 2 [1, 2] false ≤ percentileFromSorted 1 [1, 2] false :=
  c3_percentile_monotone [1, 2] 2 1 (by decide) (by decide)

/-! ### Archetype classification -/

/-- The archetype rules exactly as the specification words them: rule 1
utility, rule 2 highest pillar percentile with ties broken in the
declaration order decon, assembly, sterilize (written as the first key
in that order attaining the maximum), rule 3 the pillar holding the top
total with assembly checked before sterilize and decon as fallback. -/
def archetypeKeySpec (pillarTotals pillarPercentiles : PillarKey → ℚ)
    (pillarCount : Nat) : ArchetypeKey :=
  let sum := pillarTotals PillarKey.decon + pillarTotals PillarKey.assembly +
    pillarTotals PillarKey.sterilize
  let top := max (pillarTotals PillarKey.decon)
    (max (pillarTotals PillarKey.assembly) (pillarTotals PillarKey.sterilize))
  let topShare := if sum = 0 then 0 else top / sum
  if topShare < 2 / 5 ∧ pillarCount ≥ 2 then ArchetypeKey.utility
  else if sum = 0 then
    (if pillarPercentiles PillarKey.decon ≥ pillarPercentiles PillarKey.assembly ∧
        pillarPercentiles PillarKey.decon ≥ pillarPercentiles PillarKey.sterilize then
      ArchetypeKey.decon
    else if pillarPercentiles PillarKey.assembly ≥ pillarPercentiles PillarKey.sterilize then
      ArchetypeKey.assembly
    else ArchetypeKey.sterilize)
  else if top = pillarTotals PillarKey.assembly then ArchetypeKey.assembly
  else if top = pillarTotals PillarKey.sterilize then ArchetypeKey.sterilize
  else ArchetypeKey.decon

/-- C4.  The implemented archetype selection agrees with the three
specification rules, in their priority order, for every combination of
pillar totals, pillar percentiles and above-median count. -/
theorem c4_archetype_rules (pillarTotals pillarPercentiles : PillarKey → ℚ)
    (pillarCount : Nat) :
    archetypeKeyOf pillarTotals pillarPercentiles pillarCount =
      archetypeKeySpec pillarTotals pillarPercentiles pillarCount := by
  unfold archetypeKeyOf archetypeKeySpec
  dsimp only
  split_ifs <;> try rfl
  · rename_i hs h1 hd
    simp only [sortDescBy, insertDescBy, ge_iff_le]
    by_cases hzy : pillarPercentiles PillarKey.sterilize ≤ pillarPercentiles PillarKey.assembly
    · rw [if_pos hzy]
      simp only [insertDescBy, ge_iff_le]
      rw [if_pos hd.1]
      rfl
    · rw [if_neg hzy]
      simp only [insertDescBy, ge_iff_le]
      rw [if_pos hd.2]
      rfl
  · rename_i hs h1 hd ha
    simp only [sortDescBy, insertDescBy, ge_iff_le]
    rw [if_pos ha]
    simp only [insertDescBy, ge_iff_le]
    by_cases hyx : pillarPercentiles PillarKey.assembly ≤ pillarPercentiles PillarKey.decon
    · exact absurd ⟨hyx, le_trans ha hyx⟩ hd
    · rw [if_neg hyx]
      rfl
  · rename_i hs h1 hd ha
    simp only [sortDescBy, insertDescBy, ge_iff_le]
    rw [if_neg ha]
    simp only [insertDescBy, ge_iff_le]
    by_cases hxz : pillarPercentiles PillarKey.sterilize ≤ pillarPercentiles PillarKey.decon
    · exact absurd ⟨le_trans (not_le.mp ha).le hxz, hxz⟩ hd
    · rw [if_neg hxz]
      rfl

/-! ### Determinism and the empty cohort -/

/-- C6.  Two runs of the engine on the same rows and the same options
produce the same report, scores, percentiles, archetypes, badges and
coaching text included: the pipeline, the rolling hash and the seeded
pick are pure functions of their inputs. -/
theorem c6_determinism (rows : List RawRow) (hoursWorkedAvailable : Bool)
    (r₁ r₂ : ProcessedReport)
    (h₁ : r₁ = buildReport rows hoursWorkedAvailable)
    (h₂ : r₂ = buildReport rows hoursWorkedAvailable) : r₁ = r₂ :=
  h₁.trans h₂.symm

/-- Concrete instance of c6_determinism. -/
theorem c6_determinism_witness : buildReport [] true = buildReport [] true :=
  c6_determinism [] true (buildReport [] true) (buildReport [] true) rfl rfl

/-- C8.  The empty cohort yields a well-defined empty report: no users
and every metric and pillar median equal to 0. -/
theorem c8_empty_cohort (hoursWorkedAvailable : Bool) :
    (buildReport [] hoursWorkedAvailable).users = [] ∧
    (∀ k : MetricKey, (buildReport [] hoursWorkedAvailable).medians k = 0) ∧
    (∀ p : PillarKey, (buildReport [] hoursWorkedAvailable).pillarMedians p = 0) :=
  ⟨rfl, fun _ => rfl, fun _ => rfl⟩

/-! ### The head of a stable descending sort -/

/-- The first element of x :: l attaining the maximum of f: later
elements replace the current best only when strictly greater. -/
def firstMaxBy {α : Type} (f : α → ℚ) (x : α) : List α → α
  | [] => x
  | y :: ys => firstMaxBy f (if f y > f x then y else x) ys

/-- The running best never decreases. -/
lemma le_firstMaxBy {α : Type} (f : α → ℚ) (l : List α) :
    ∀ x : α, f x ≤ f (firstMaxBy f x l) := by
  induction l with
  | nil => intro x; exact le_refl _
  | cons y ys ih =>
    intro x
    simp only [firstMaxBy]
    by_cases h : f y > f x
    · rw [if_pos h]
      exact le_trans h.le (ih y)
    · rw [if_neg h]
      exact ih x

/-- Starting from a weakly smaller seed gives the same result unless the
larger seed beats everything. -/
lemma firstMaxBy_absorb {α : Type} (f : α → ℚ) (l : List α) :
    ∀ x y : α, f y ≤ f x →
      firstMaxBy f x l = if f x ≥ f (firstMaxBy f y l) then x else firstMaxBy f y l := by
  induction l with
  | nil =>
    intro x y hyx
    simp only [firstMaxBy]
    rw [if_pos hyx]
  | cons z zs ih =>
    intro x y hyx
    simp only [firstMaxBy]
    by_cases hzx : f z > f x
    · have hzy : f z > f y := lt_of_le_of_lt hyx hzx
      rw [if_pos hzx, if_pos hzy]
      have hne : ¬ (f x ≥ f (firstMaxBy f z zs)) :=
        not_le.mpr (lt_of_lt_of_le hzx (le_firstMaxBy f zs z))
      rw [if_neg hne]
    · by_cases hzy : f z > f y
      · rw [if_neg hzx, if_pos hzy]
        exact ih x z (not_lt.mp hzx)
      · rw [if_neg hzx, if_neg hzy]
        exact ih x y hyx

/-- The running best is an upper bound for the whole list. -/
lemma firstMaxBy_is_max {α : Type} (f : α → ℚ) (l : List α) :
    ∀ x : α, ∀ z ∈ x :: l, f z ≤ f (firstMaxBy f x l) := by
  induction l with
  | nil =>
    intro x z hz
    rcases List.mem_singleton.mp hz with rfl
    exact le_refl _
  | cons y ys ih =>
    intro x z hz
    simp only [firstMaxBy]
    rcases List.mem_cons.mp hz with heq | hz'
    · subst heq
      by_cases h : f y > f z
      · rw [if_pos h]
        exact le_trans h.le (le_firstMaxBy f ys y)
      · rw [if_neg h]
        exact le_firstMaxBy f ys z
    · rcases List.mem_cons.mp hz' with heq | hz2
      · subst heq
        by_cases h : f z > f x
        · rw [if_pos h]
          exact le_firstMaxBy f ys z
        · rw [if_neg h]
          exact le_trans (not_lt.mp h) (le_firstMaxBy f ys x)
      · exact ih (if f y > f x then y else x) z
          (List.mem_cons_of_mem _ hz2)

/-- Everything before the first maximum is strictly smaller: the first
maximum splits the list. -/
lemma firstMaxBy_split {α : Type} (f : α → ℚ) (l : List α) :
    ∀ x : α, ∃ l1 l2, x :: l = l1 ++ firstMaxBy f x l :: l2 ∧
      ∀ z ∈ l1, f z < f (firstMaxBy f x l) := by
  induction l with
  | nil =>
    intro x
    exact ⟨[], [], by simp [firstMaxBy], by simp⟩
  | cons y ys ih =>
    intro x
    simp only [firstMaxBy]
    by_cases h : f y > f x
    · rw [if_pos h]
      obtain ⟨l1, l2, hdec, hlt⟩ := ih y
      refine ⟨x :: l1, l2, ?_, ?_⟩
      · rw [List.cons_append, ← hdec]
      · intro z hz
        rcases List.mem_cons.mp hz with heq | hz'
        · subst heq
          exact lt_of_lt_of_le h (le_firstMaxBy f ys y)
        · exact hlt z hz'
    · rw [if_neg h]
      obtain ⟨l1, l2, hdec, hlt⟩ := ih x
      cases l1 with
      | nil =>
        simp only [List.nil_append] at hdec
        refine ⟨[], y :: ys, ?_, by simp⟩
        have hx : firstMaxBy f x ys = x := by
          injection hdec with h1 h2
          exact h1.symm
        rw [hx]
        rfl
      | cons a l1' =>
        simp only [List.cons_append] at hdec
        injection hdec with h1 h2
        refine ⟨x :: y :: l1', l2, ?_, ?_⟩
        · simp only [List.cons_append]
          rw [← h2]
        · intro z hz
          have hr := hlt a (List.mem_cons_self a l1')
          rcases List.mem_cons.mp hz with heq | hz'
          · rw [heq]
            exact h1.symm ▸ hr
          · rcases List.mem_cons.mp hz' with heq2 | hz2
            · rw [heq2]
              calc f y ≤ f x := not_lt.mp h
                _ = f a := by rw [h1]
                _ < _ := hr
            · exact hlt z (List.mem_cons_of_mem a hz2)

/-- The head of the stable descending sort is the first element
attaining the maximum key. -/
lemma head_sortDescBy {α : Type} (f : α → ℚ) (l : List α) :
    ∀ x : α, (sortDescBy f (x :: l)).head? = some (firstMaxBy f x l) := by
  induction l with
  | nil =>
    intro x
    simp [sortDescBy, insertDescBy, firstMaxBy]
  | cons y ys ih =>
    intro x
    have hih := ih y
    obtain ⟨t, ht⟩ : ∃ t, sortDescBy f (y :: ys) = firstMaxBy f y ys :: t := by
      cases hsd : sortDescBy f (y :: ys) with
      | nil => rw [hsd] at hih; exact absurd hih (by simp)
      | cons h0 t =>
        rw [hsd] at hih
        simp only [List.head?_cons, Option.some.injEq] at hih
        exact ⟨t, by rw [hih]⟩
    show (insertDescBy f x (sortDescBy f (y :: ys))).head? = some (firstMaxBy f x (y :: ys))
    rw [ht]
    simp only [insertDescBy]
    by_cases hge : f x ≥ f (firstMaxBy f y ys)
    · rw [if_pos hge]
      have hyx : ¬ (f y > f x) := not_lt.mpr (le_trans (le_firstMaxBy f ys y) hge)
      simp only [firstMaxBy, if_neg hyx]
      rw [firstMaxBy_absorb f ys x y (not_lt.mp hyx), if_pos hge]
      rfl
    · rw [if_neg hge]
      by_cases hyx : f y > f x
      · simp only [firstMaxBy, if_pos hyx]
        rfl
      · simp only [firstMaxBy, if_neg hyx]
        rw [firstMaxBy_absorb f ys x y (not_lt.mp hyx), if_neg hge]
        rfl

/-- C9.  The coaching strength pick is the metric with the maximum
oriented percentile and the opportunity pick the metric with the
minimum, and in both cases everything declared earlier among the tied
metrics is strictly beaten, i.e. ties go to the earliest-declared
metric. -/
theorem c9_strength_opportunity (p : MetricKey → ℚ) :
    ∃ s o : MetricRank,
      strengthOf p = some s ∧ opportunityOf p = some o ∧
      (∀ z ∈ metricRanksOf p, z.percentile ≤ s.percentile) ∧
      (∃ l1 l2, metricRanksOf p = l1 ++ s :: l2 ∧ ∀ z ∈ l1, z.percentile < s.percentile) ∧
      (∀ z ∈ metricRanksOf p, o.percentile ≤ z.percentile) ∧
      (∃ l1 l2, metricRanksOf p = l1 ++ o :: l2 ∧ ∀ z ∈ l1, o.percentile < z.percentile) := by
  obtain ⟨r0, rest, hmr⟩ : ∃ r0 rest, metricRanksOf p = r0 :: rest := by
    cases hm : metricRanksOf p with
    | nil => exact absurd hm (by simp [metricRanksOf, DEFAULT_METRICS])
    | cons a l => exact ⟨a, l, rfl⟩
  have hs : strengthOf p = some (firstMaxBy (fun z => z.percentile) r0 rest) := by
    unfold strengthOf
    rw [hmr]
    exact head_sortDescBy _ rest r0
  have ho : opportunityOf p = some (firstMaxBy (fun z => -(z.percentile)) r0 rest) := by
    unfold opportunityOf sortAscBy
    rw [hmr]
    exact head_sortDescBy _ rest r0
  refine ⟨_, _, hs, ho, ?_, ?_, ?_, ?_⟩
  · intro z hz
    exact firstMaxBy_is_max (fun z => z.percentile) rest r0 z (hmr ▸ hz)
  · obtain ⟨l1, l2, hdec, hlt⟩ := firstMaxBy_split (fun z => z.percentile) rest r0
    exact ⟨l1, l2, by rw [hmr, hdec], hlt⟩
  · intro z hz
    have := firstMaxBy_is_max (fun z => -(z.percentile)) rest r0 z (hmr ▸ hz)
    simpa using this
  · obtain ⟨l1, l2, hdec, hlt⟩ := firstMaxBy_split (fun z => -(z.percentile)) rest r0
    refine ⟨l1, l2, by rw [hmr, hdec], ?_⟩
    intro z hz
    have := hlt z hz
    simpa using this

/-! ### The single all-zero person -/

/-- A row whose every counter and hour is 0 and whose identity fields
are empty. -/
def zeroRow : RawRow :=
  { userId := "", userName := "", hoursWorked := 0, numofEvents := 0, defectRate := 0,
    deconScans := 0, sinkInst := 0, sinkTrays := 0, assembledTrays := 0, assembledPacks := 0,
    assembledInst := 0, assemblyMissingInst := 0, sterilizerLoads := 0, itemsSterilized := 0,
    deliverScans := 0, activityCount := 0, activityTimeMins := 0 }

/-- C2 counterexample.  For a cohort of exactly one person with every
counter and hour at 0, the engine does complete, but the percentiles
are not 0: the mid-rank of a single-element cohort is 50, and all three
pillar totals (0) sit at the cohort median (0), so versatility is 100,
not 0. -/
theorem c2_single_zero_row_counterexample :
    (buildReport [zeroRow] true).users.map (fun u => u.percentiles MetricKey.deconScans) = [50] ∧
    (buildReport [zeroRow] true).users.map (fun u => u.scores.versatility) = [100] ∧
    (50 : ℚ) ≠ 0 ∧ (100 : ℚ) ≠ 0 := by
  refine ⟨?_, ?_, by norm_num, by norm_num⟩
  · with_unfolding_all decide
  · with_unfolding_all decide

/-- C2 amended.  For the single all-zero person the engine completes
(total function, every division guarded), every metric and pillar
percentile equals 50, and the versatility score equals 100. -/
theorem c2_single_zero_row_amended :
    (∀ k : MetricKey,
      (buildReport [zeroRow] true).users.map (fun u => u.percentiles k) = [50]) ∧
    (∀ q : PillarKey,
      (buildReport [zeroRow] true).users.map (fun u => u.pillarPercentiles q) = [50]) ∧
    (buildReport [zeroRow] true).users.map (fun u => u.scores.versatility) = [100] := by
  refine ⟨?_, ?_, ?_⟩
  · intro k
    cases k <;> with_unfolding_all decide
  · intro q
    cases q <;> with_unfolding_all decide
  · with_unfolding_all decide

/-! ### Row normalization -/

/-- toNumber never returns a negative or non-finite value. -/
lemma toNumber_nonneg (v : JSValue) : 0 ≤ toNumber v := by
  unfold toNumber
  cases h : jsNumber v
  · exact le_refl 0
  · exact le_max_left 0 _

/-- C7 counterexample.  coerceRow does not trim its string fields: a
user name with surrounding blanks is passed through unchanged, not
replaced by its trimmed form. -/
theorem c7_coerce_row_counterexample :
    (coerceRow (updateRow (fun _ => JSValue.undef) ("User Name")
        (JSValue.str (" x ") none))).userName = " x " ∧
    (" x ").trim = "x" ∧ (" x " : String) ≠ "x" := by
  refine ⟨?_, ?_, ?_⟩
  · with_unfolding_all decide
  · with_unfolding_all decide
  · with_unfolding_all decide

/-- C7 amended.  coerceRow is total on any input mapping: every numeric
field is the clamped Number() conversion, hence non-negative, with
non-finite input giving 0 and negative input clamped to 0; string
fields are coerced to text as-is (not trimmed); a fully absent row
yields the all-zero, empty-string row. -/
theorem c7_coerce_row_amended (row : JSRow) (s : String) (nv : Option ℚ) (q : ℚ) :
    (0 ≤ (coerceRow row).hoursWorked ∧ 0 ≤ (coerceRow row).numofEvents ∧
      0 ≤ (coerceRow row).defectRate ∧ 0 ≤ (coerceRow row).deconScans ∧
      0 ≤ (coerceRow row).sinkInst ∧ 0 ≤ (coerceRow row).sinkTrays ∧
      0 ≤ (coerceRow row).assembledTrays ∧ 0 ≤ (coerceRow row).assembledPacks ∧
      0 ≤ (coerceRow row).assembledInst ∧ 0 ≤ (coerceRow row).assemblyMissingInst ∧
      0 ≤ (coerceRow row).sterilizerLoads ∧ 0 ≤ (coerceRow row).itemsSterilized ∧
      0 ≤ (coerceRow row).deliverScans ∧ 0 ≤ (coerceRow row).activityCount ∧
      0 ≤ (coerceRow row).activityTimeMins) ∧
    (coerceRow (updateRow row ("User Name") (JSValue.str s nv))).userName = s ∧
    (coerceRow (updateRow row ("Hours Worked") JSValue.nan)).hoursWorked = 0 ∧
    (coerceRow (updateRow row ("Defect Rate") (JSValue.num q))).defectRate = max 0 q ∧
    coerceRow (fun _ => JSValue.undef) = zeroRow := by
  refine ⟨⟨toNumber_nonneg _, toNumber_nonneg _, toNumber_nonneg _, toNumber_nonneg _,
    toNumber_nonneg _, toNumber_nonneg _, toNumber_nonneg _, toNumber_nonneg _,
    toNumber_nonneg _, toNumber_nonneg _, toNumber_nonneg _, toNumber_nonneg _,
    toNumber_nonneg _, toNumber_nonneg _, toNumber_nonneg _⟩, ?_, ?_, ?_, ?_⟩
  · simp [coerceRow, updateRow, coalesce, jsString]
  · simp [coerceRow, updateRow, toNumber, jsNumber]
  · simp [coerceRow, updateRow, toNumber, jsNumber]
  · rfl

/-! ### Plumbing for the per-user stages -/

lemma usersWithPercentilesOf_length (rows : List RawRow) (hwa : Bool) :
    (usersWithPercentilesOf rows hwa).length = (baseUsersOf rows).length := by
  simp [usersWithPercentilesOf]

lemma usersWithScoresOf_length (rows : List RawRow) (hwa : Bool) :
    (usersWithScoresOf rows hwa).length = (usersWithPercentilesOf rows hwa).length := by
  simp [usersWithScoresOf]

lemma usersWithPercentilesOf_get (rows : List RawRow) (hwa : Bool) (i : Nat)
    (h1 : i < (usersWithPercentilesOf rows hwa).length)
    (h2 : i < (baseUsersOf rows).length) :
    (usersWithPercentilesOf rows hwa).get ⟨i, h1⟩ =
      userPOf rows hwa i ((baseUsersOf rows).get ⟨i, h2⟩) := by
  simp only [usersWithPercentilesOf, List.get_eq_getElem, List.getElem_map, List.getElem_enum]

lemma usersWithScoresOf_get (rows : List RawRow) (hwa : Bool) (i : Nat)
    (h1 : i < (usersWithScoresOf rows hwa).length)
    (h2 : i < (usersWithPercentilesOf rows hwa).length) :
    (usersWithScoresOf rows hwa).get ⟨i, h1⟩ =
      userRecordOf (scoreSortedOf rows hwa)
        ((usersWithPercentilesOf rows hwa).get ⟨i, h2⟩) := by
  simp only [usersWithScoresOf, List.get_eq_getElem, List.getElem_map]

lemma pillarRatesByUserOf_getD (rows : List RawRow) (i : Nat)
    (h : i < (baseUsersOf rows).length) :
    (pillarRatesByUserOf rows).getD i (fun _ => 0) =
      buildPillarRates ((baseUsersOf rows).get ⟨i, h⟩).pillarTotals
        ((baseUsersOf rows).get ⟨i, h⟩).hoursWorked := by
  have hl : i < (pillarRatesByUserOf rows).length := by
    simpa [pillarRatesByUserOf] using h
  rw [List.getD_eq_getElem _ _ hl]
  simp [pillarRatesByUserOf, List.get_eq_getElem]

lemma sortedMetricValuesOf_sorted (rows : List RawRow) (k : MetricKey) :
    List.Sorted (· ≤ ·) (sortedMetricValuesOf rows k) := by
  unfold sortedMetricValuesOf buildSortedValues
  exact List.sorted_insertionSort _ _

lemma sortedPillarValuesOf_sorted (rows : List RawRow) (q : PillarKey) :
    List.Sorted (· ≤ ·) (sortedPillarValuesOf rows q) := by
  unfold sortedPillarValuesOf buildSortedValues
  exact List.sorted_insertionSort _ _

lemma scoreSortedOf_sorted (rows : List RawRow) (hwa : Bool) (k : ScoreKey) :
    List.Sorted (· ≤ ·) (scoreSortedOf rows hwa k) := by
  unfold scoreSortedOf
  exact List.sorted_insertionSort _ _

lemma metrics_mem_sorted (rows : List RawRow) (k : MetricKey) {b : BaseUser}
    (hb : b ∈ baseUsersOf rows) : b.metrics k ∈ sortedMetricValuesOf rows k := by
  unfold sortedMetricValuesOf buildSortedValues metricValuesOf
  rw [List.Perm.mem_iff (List.perm_insertionSort _ _)]
  exact List.mem_map.mpr ⟨b.metrics, List.mem_map.mpr ⟨b, hb, rfl⟩, rfl⟩

lemma pillars_mem_sorted (rows : List RawRow) (q : PillarKey) {b : BaseUser}
    (hb : b ∈ baseUsersOf rows) : b.pillarTotals q ∈ sortedPillarValuesOf rows q := by
  unfold sortedPillarValuesOf buildSortedValues pillarTotalsListOf
  rw [List.Perm.mem_iff (List.perm_insertionSort _ _)]
  exact List.mem_map.mpr ⟨b.pillarTotals, List.mem_map.mpr ⟨b, hb, rfl⟩, rfl⟩

lemma score_mem_sorted (rows : List RawRow) (hwa : Bool) (k : ScoreKey) {u : UserP}
    (hu : u ∈ usersWithPercentilesOf rows hwa) :
    scoreValue u k ∈ scoreSortedOf rows hwa k := by
  unfold scoreSortedOf
  rw [List.Perm.mem_iff (List.perm_insertionSort _ _)]
  exact List.mem_map.mpr ⟨u, hu, rfl⟩

/-- Projection equations for the per-user stage builders, each
definitional. -/
lemma buildPercentiles_apply {κ : Type} (values : κ → ℚ) (sorted : κ → List ℚ)
    (higherBetter : κ → Bool) (k : κ) :
    buildPercentiles values sorted higherBetter k =
      percentileFromSorted (values k) (sorted k) (higherBetter k) := rfl

lemma buildPillarRates_apply (totals : PillarKey → ℚ) (hours : ℚ) (q : PillarKey) :
    buildPillarRates totals hours q = safeDiv (totals q) hours (1 / 4) := rfl

lemma PILLAR_HIGHER_BETTER_apply (q : PillarKey) : PILLAR_HIGHER_BETTER q = true := rfl

lemma userPOf_pillarTotals (rows : List RawRow) (hwa : Bool) (index : Nat) (user : BaseUser) :
    (userPOf rows hwa index user).pillarTotals = user.pillarTotals := rfl

lemma userPOf_hoursWorked (rows : List RawRow) (hwa : Bool) (index : Nat) (user : BaseUser) :
    (userPOf rows hwa index user).hoursWorked = user.hoursWorked := rfl

lemma userPOf_percentiles (rows : List RawRow) (hwa : Bool) (index : Nat) (user : BaseUser) :
    (userPOf rows hwa index user).percentiles =
      buildPercentiles user.metrics (sortedMetricValuesOf rows) METRIC_HIGHER_BETTER := rfl

lemma userPOf_pillarPercentiles (rows : List RawRow) (hwa : Bool) (index : Nat)
    (user : BaseUser) :
    (userPOf rows hwa index user).pillarPercentiles =
      buildPercentiles user.pillarTotals (sortedPillarValuesOf rows) PILLAR_HIGHER_BETTER := rfl

lemma userPOf_scores_productivity (rows : List RawRow) (hwa : Bool) (index : Nat)
    (user : BaseUser) :
    (userPOf rows hwa index user).scores.productivity =
      if hwa then
        (buildPercentiles ((pillarRatesByUserOf rows).getD index (fun _ => 0))
            (sortedPillarRateValuesOf rows) PILLAR_HIGHER_BETTER PillarKey.decon +
          buildPercentiles ((pillarRatesByUserOf rows).getD index (fun _ => 0))
            (sortedPillarRateValuesOf rows) PILLAR_HIGHER_BETTER PillarKey.assembly +
          buildPercentiles ((pillarRatesByUserOf rows).getD index (fun _ => 0))
            (sortedPillarRateValuesOf rows) PILLAR_HIGHER_BETTER PillarKey.sterilize) / 3
      else
        (buildPercentiles user.pillarTotals (sortedPillarValuesOf rows)
            PILLAR_HIGHER_BETTER PillarKey.decon +
          buildPercentiles user.pillarTotals (sortedPillarValuesOf rows)
            PILLAR_HIGHER_BETTER PillarKey.assembly +
          buildPercentiles user.pillarTotals (sortedPillarValuesOf rows)
            PILLAR_HIGHER_BETTER PillarKey.sterilize) / 3 := rfl

lemma userRecordOf_percentiles (ss : ScoreKey → List ℚ) (user : UserP) :
    (userRecordOf ss user).percentiles = user.percentiles := rfl

lemma userRecordOf_pillarPercentiles (ss : ScoreKey → List ℚ) (user : UserP) :
    (userRecordOf ss user).pillarPercentiles = user.pillarPercentiles := rfl

lemma userRecordOf_productivityPercentile (ss : ScoreKey → List ℚ) (user : UserP) :
    (userRecordOf ss user).scores.productivityPercentile =
      percentileFromSorted user.scores.productivity (ss ScoreKey.productivity) true := rfl

lemma userRecordOf_qualityPercentile (ss : ScoreKey → List ℚ) (user : UserP) :
    (userRecordOf ss user).scores.qualityPercentile =
      percentileFromSorted user.scores.quality (ss ScoreKey.quality) true := rfl

lemma userRecordOf_versatilityPercentile (ss : ScoreKey → List ℚ) (user : UserP) :
    (userRecordOf ss user).scores.versatilityPercentile =
      percentileFromSorted user.scores.versatility (ss ScoreKey.versatility) true := rfl

lemma scoreValue_productivity (u : UserP) :
    scoreValue u ScoreKey.productivity = u.scores.productivity := rfl

lemma scoreValue_quality (u : UserP) :
    scoreValue u ScoreKey.quality = u.scores.quality := rfl

lemma scoreValue_versatility (u : UserP) :
    scoreValue u ScoreKey.versatility = u.scores.versatility := rfl

/-- C5.  The Productivity composite of a person is the plain average of the
oriented percentiles of the three raw pillar totals when
hoursWorkedAvailable is false, independent of the hours actually
worked; and the average of the percentiles of the three hours-floored
pillar rates (total / max(hours, 0.25)) when the flag is true. -/
theorem c5_productivity_branches (rows : List RawRow) (hwa : Bool)
    (i : Fin (usersWithPercentilesOf rows hwa).length) :
    ((usersWithPercentilesOf rows hwa).get i).scores.productivity =
      if hwa then
        (percentileFromSorted
            (safeDiv (((usersWithPercentilesOf rows hwa).get i).pillarTotals PillarKey.decon)
              (((usersWithPercentilesOf rows hwa).get i).hoursWorked) (1 / 4))
            (sortedPillarRateValuesOf rows PillarKey.decon) true +
          percentileFromSorted
            (safeDiv (((usersWithPercentilesOf rows hwa).get i).pillarTotals PillarKey.assembly)
              (((usersWithPercentilesOf rows hwa).get i).hoursWorked) (1 / 4))
            (sortedPillarRateValuesOf rows PillarKey.assembly) true +
          percentileFromSorted
            (safeDiv (((usersWithPercentilesOf rows hwa).get i).pillarTotals PillarKey.sterilize)
              (((usersWithPercentilesOf rows hwa).get i).hoursWorked) (1 / 4))
            (sortedPillarRateValuesOf rows PillarKey.sterilize) true) / 3
      else
        (percentileFromSorted
            (((usersWithPercentilesOf rows hwa).get i).pillarTotals PillarKey.decon)
            (sortedPillarValuesOf rows PillarKey.decon) true +
          percentileFromSorted
            (((usersWithPercentilesOf rows hwa).get i).pillarTotals PillarKey.assembly)
            (sortedPillarValuesOf rows PillarKey.assembly) true +
          percentileFromSorted
            (((usersWithPercentilesOf rows hwa).get i).pillarTotals PillarKey.sterilize)
            (sortedPillarValuesOf rows PillarKey.sterilize) true) / 3 := by
  obtain ⟨i, h⟩ := i
  have h2 : i < (baseUsersOf rows).length := by
    have := usersWithPercentilesOf_length rows hwa
    omega
  rw [usersWithPercentilesOf_get rows hwa i h h2]
  rw [userPOf_scores_productivity, pillarRatesByUserOf_getD rows i h2]
  simp only [userPOf_pillarTotals, userPOf_hoursWorked, buildPercentiles_apply,
    buildPillarRates_apply, PILLAR_HIGHER_BETTER_apply]

/-- C10.  In any non-empty cohort, every percentile a person receives
against a distribution containing the own value of that person (the twelve
metric percentiles, the three pillar percentiles and the three
composite-score percentiles) is strictly between 0 and 100. -/
theorem c10_self_percentiles_strict (rows : List RawRow) (hwa : Bool)
    (i : Fin (usersWithScoresOf rows hwa).length) :
    (∀ k : MetricKey,
      0 < ((usersWithScoresOf rows hwa).get i).percentiles k ∧
      ((usersWithScoresOf rows hwa).get i).percentiles k < 100) ∧
    (∀ q : PillarKey,
      0 < ((usersWithScoresOf rows hwa).get i).pillarPercentiles q ∧
      ((usersWithScoresOf rows hwa).get i).pillarPercentiles q < 100) ∧
    (0 < ((usersWithScoresOf rows hwa).get i).scores.productivityPercentile ∧
      ((usersWithScoresOf rows hwa).get i).scores.productivityPercentile < 100) ∧
    (0 < ((usersWithScoresOf rows hwa).get i).scores.qualityPercentile ∧
      ((usersWithScoresOf rows hwa).get i).scores.qualityPercentile < 100) ∧
    (0 < ((usersWithScoresOf rows hwa).get i).scores.versatilityPercentile ∧
      ((usersWithScoresOf rows hwa).get i).scores.versatilityPercentile < 100) := by
  obtain ⟨i, h⟩ := i
  have hP : i < (usersWithPercentilesOf rows hwa).length := by
    have := usersWithScoresOf_length rows hwa
    omega
  have hB : i < (baseUsersOf rows).length := by
    have := usersWithPercentilesOf_length rows hwa
    omega
  have hmemP : (usersWithPercentilesOf rows hwa).get ⟨i, hP⟩ ∈ usersWithPercentilesOf rows hwa :=
    List.get_mem _ _ _
  have hmemB : (baseUsersOf rows).get ⟨i, hB⟩ ∈ baseUsersOf rows := List.get_mem _ _ _
  rw [usersWithScoresOf_get rows hwa i h hP]
  rw [usersWithPercentilesOf_get rows hwa i hP hB] at hmemP ⊢
  have hsp := score_mem_sorted rows hwa ScoreKey.productivity hmemP
  have hsq := score_mem_sorted rows hwa ScoreKey.quality hmemP
  have hsv := score_mem_sorted rows hwa ScoreKey.versatility hmemP
  rw [scoreValue_productivity] at hsp
  rw [scoreValue_quality] at hsq
  rw [scoreValue_versatility] at hsv
  refine ⟨?_, ?_, ?_, ?_, ?_⟩
  · intro k
    rw [userRecordOf_percentiles, userPOf_percentiles, buildPercentiles_apply]
    exact percentileFromSorted_mem_between _ _ _ (sortedMetricValuesOf_sorted rows k)
      (metrics_mem_sorted rows k hmemB)
  · intro q
    rw [userRecordOf_pillarPercentiles, userPOf_pillarPercentiles, buildPercentiles_apply]
    exact percentileFromSorted_mem_between _ _ _ (sortedPillarValuesOf_sorted rows q)
      (pillars_mem_sorted rows q hmemB)
  · rw [userRecordOf_productivityPercentile]
    exact percentileFromSorted_mem_between _ _ _
      (scoreSortedOf_sorted rows hwa ScoreKey.productivity) hsp
  · rw [userRecordOf_qualityPercentile]
    exact percentileFromSorted_mem_between _ _ _
      (scoreSortedOf_sorted rows hwa ScoreKey.quality) hsq
  · rw [userRecordOf_versatilityPercentile]
    exact percentileFromSorted_mem_between _ _ _
      (scoreSortedOf_sorted rows hwa ScoreKey.versatility) hsv

end SPD
